import Mathlib

/-!
Shallow embedding of the chunked image-transfer protocol implemented by
`send_image.py` (class `ImageSender`) and `receive_image.py` (class
`ImageReceiver`).  Byte strings are `List Nat` (each byte a value `< 256`
where it matters), multi-byte integers are big-endian as in the source,
Python dicts are association lists with replace-on-insert semantics, and
wall-clock times are rationals.  Every definition is translated from the
Python source; theorems at the end settle the specification claims.
-/

/-! ## Configuration constants (send_image.py / receive_image.py) -/

def CHUNK_SIZE : Nat := 200

def SYNC_BYTE : Nat := 0x7E

def PKT_DATA : Nat := 0x01

def PKT_END : Nat := 0xFF

def PKT_ACK : Nat := 0xAA

/-- NACK marker 0xDD (written inline in both Python files). -/
def PKT_NACK : Nat := 0xDD

def RECV_TIMEOUT : Rat := 15

def MAX_NACK_RETRIES : Nat := 3

def MAX_RETRY_ROUNDS : Nat := 3

/-! ## Shared helpers -/

/-- Big-endian 16-bit encoding `bytes([(x >> 8) & 0xFF, x & 0xFF])`. -/
def u16be (n : Nat) : List Nat := [n / 256 % 256, n % 256]

/-- Checksum used by both sides: sum of all bytes modulo 256. -/
def checksum (data : List Nat) : Nat := data.sum % 256

/-- Association-list lookup, modelling Python `d[k]` / `k in d`. -/
def alookup {α : Type} : List (Nat × α) → Nat → Option α
  | [], _ => none
  | (k, v) :: rest, key => if k = key then some v else alookup rest key

/-- Association-list insert-or-replace, modelling Python `d[k] = v`. -/
def aupsert {α : Type} : List (Nat × α) → Nat → α → List (Nat × α)
  | [], key, val => [(key, val)]
  | (k, v) :: rest, key, val =>
    if k = key then (key, val) :: rest else (k, v) :: aupsert rest key val

/-- Association-list deletion, modelling Python `del d[k]`. -/
def aremove {α : Type} : List (Nat × α) → Nat → List (Nat × α)
  | [], _ => []
  | (k, v) :: rest, key => if k = key then rest else (k, v) :: aremove rest key

/-- Python `max(d.keys())` for a non-empty dict of Nat keys (0 when empty,
matching the `if transfer["chunks"] else 0` guard at the call sites). -/
def maxKey {α : Type} (l : List (Nat × α)) : Nat :=
  (l.map Prod.fst).foldr max 0

/-! ## Sender (send_image.py, class ImageSender) -/

namespace ImageSender

/-- `ImageSender.build_packet`: 6-byte addressing header (dest addr,
dest freq offset, src addr, src freq offset) followed by
`type(1) + file_id(2) + seq(2) + data`.  Note: no sync byte. -/
def build_packet (myAddr offsetFreq destAddr pktType fileId seq : Nat)
    (data : List Nat) : List Nat :=
  destAddr / 256 % 256 :: destAddr % 256 :: offsetFreq ::
  myAddr / 256 % 256 :: myAddr % 256 :: offsetFreq ::
  pktType :: fileId / 256 % 256 :: fileId % 256 ::
  seq / 256 % 256 :: seq % 256 :: data

/-- `ImageSender.send_end_packet`: builds the END marker frame with the
constant 0xFFFF in the seq field. -/
def send_end_packet (myAddr offsetFreq destAddr fileId : Nat) : List Nat :=
  build_packet myAddr offsetFreq destAddr PKT_END fileId 0xFFFF []

/-- `math.ceil(file_size / CHUNK_SIZE)` from `chunk_image_to_file`. -/
def total_chunks_of (fileSize : Nat) : Nat :=
  (fileSize + (CHUNK_SIZE - 1)) / CHUNK_SIZE

/-- The data slice `image_data[start : start + CHUNK_SIZE]` of chunk `seq`. -/
def chunkData (image : List Nat) (seq : Nat) : List Nat :=
  (image.drop (seq * CHUNK_SIZE)).take CHUNK_SIZE

/-- The ordered chunk list produced by `chunk_image_to_file`. -/
def chunk_image (image : List Nat) : List (List Nat) :=
  (List.range (total_chunks_of image.length)).map (chunkData image)

end ImageSender

/-! ## Receiver data model (receive_image.py, class ImageReceiver) -/

/-- One in-flight transfer: the dict stored in `self.transfers[file_id]`. -/
structure Transfer where
  sender_addr : Nat
  chunks : List (Nat × List Nat)
  last_time : Rat
  total_expected : Option Nat
  end_received : Bool
deriving DecidableEq

/-- The receiver's `self.transfers` dict, keyed by file_id. -/
abbrev TransferMap := List (Nat × Transfer)

/-- Outcome of `handle_transfer_complete`: either the file was assembled
and saved, or a NACK frame was emitted. -/
inductive Outcome where
  | saved (fileData : List Nat)
  | nackSent (packet : List Nat)
deriving DecidableEq

/-- Observable result of one `handle_transfer_complete` call. -/
structure CompleteResult where
  total : Nat
  missing : List Nat
  outcome : Outcome
deriving DecidableEq

namespace ImageReceiver

/-- `ImageReceiver.build_packet`: sync byte, then the same 6-byte
addressing header and `type(1) + file_id(2) + seq(2) + data` payload. -/
def build_packet (myAddr offsetFreq destAddr pktType fileId seq : Nat)
    (data : List Nat) : List Nat :=
  SYNC_BYTE :: destAddr / 256 % 256 :: destAddr % 256 :: offsetFreq ::
  myAddr / 256 % 256 :: myAddr % 256 :: offsetFreq ::
  pktType :: fileId / 256 % 256 :: fileId % 256 ::
  seq / 256 % 256 :: seq % 256 :: data

/-- `max_seqs_per_packet = (228) // 2` from `send_nack_list`. -/
def max_seqs_per_packet : Nat := 228 / 2

/-- `ImageReceiver.send_nack_list`: truncate over-long lists, encode each
sequence number on 2 bytes, and put the count in the packet's seq field. -/
def send_nack_list (myAddr offsetFreq senderAddr fileId : Nat)
    (missing_seqs : List Nat) : List Nat :=
  let truncated :=
    if missing_seqs.length > max_seqs_per_packet
    then missing_seqs.take max_seqs_per_packet else missing_seqs
  let num_missing := truncated.length
  let seq_bytes := truncated.flatMap u16be
  build_packet myAddr offsetFreq senderAddr PKT_NACK fileId num_missing seq_bytes

/-- The missing-chunk loop of `handle_transfer_complete`:
`[seq for seq in range(total) if seq not in received_chunks]`. -/
def missingSeqs (total : Nat) (chunks : List (Nat × List Nat)) : List Nat :=
  (List.range total).filter (fun s => (alookup chunks s).isNone)

/-- Insertion into a sorted list of keys (helper for `save_image`). -/
def insertSorted (x : Nat) : List Nat → List Nat
  | [] => [x]
  | y :: ys => if x ≤ y then x :: y :: ys else y :: insertSorted x ys

/-- Python `sorted` on a list of Nat keys. -/
def sortNat : List Nat → List Nat
  | [] => []
  | x :: xs => insertSorted x (sortNat xs)

/-- `ImageReceiver.save_image` body: concatenate the chunks by ascending
sequence number. -/
def assemble (chunks : List (Nat × List Nat)) : List Nat :=
  (sortNat (chunks.map Prod.fst)).flatMap (fun s => (alookup chunks s).getD [])

/-- `ImageReceiver.handle_transfer_complete` on the transfer of `fileId`:
compute the missing set, then either save (transfer deleted, first
component `none`) or emit a NACK list (transfer retained). -/
def handle_transfer_complete (myAddr offsetFreq fileId : Nat) (t : Transfer) :
    Option Transfer × CompleteResult :=
  let total :=
    match t.total_expected with
    | none => if t.chunks.isEmpty then 0 else maxKey t.chunks + 1
    | some total => total
  let missing := missingSeqs total t.chunks
  if missing.isEmpty then
    (none, ⟨total, missing, Outcome.saved (assemble t.chunks)⟩)
  else
    (some t, ⟨total, missing,
      Outcome.nackSent (send_nack_list myAddr offsetFreq t.sender_addr fileId missing)⟩)

/-- `ImageReceiver.process_data_packet`: drop the frame on checksum
mismatch, otherwise create the transfer if new and store the chunk.
The Bool mirrors the Python return value. -/
def process_data_packet (transfers : TransferMap)
    (sender_addr fileId seq checksum_byte : Nat)
    (chunk_data : List Nat) (now : Rat) : TransferMap × Bool :=
  if checksum_byte ≠ checksum chunk_data then (transfers, false)
  else
    let t : Transfer :=
      match alookup transfers fileId with
      | none => ⟨sender_addr, [], now, none, false⟩
      | some t => t
    let t' : Transfer := { t with chunks := aupsert t.chunks seq chunk_data, last_time := now }
    (aupsert transfers fileId t', true)

/-- `ImageReceiver.process_end_packet`: ignore unknown file ids; otherwise
set `end_received` and `total_expected` and run `handle_transfer_complete`. -/
def process_end_packet (myAddr offsetFreq : Nat) (transfers : TransferMap)
    (sender_addr fileId total_chunks : Nat) (now : Rat) :
    TransferMap × Option CompleteResult :=
  match alookup transfers fileId with
  | none => (transfers, none)
  | some t =>
    let t' : Transfer :=
      { t with end_received := true, total_expected := some total_chunks, last_time := now }
    match handle_transfer_complete myAddr offsetFreq fileId t' with
    | (none, res) => (aremove transfers fileId, some res)
    | (some t2, res) => (aupsert transfers fileId t2, some res)

/-- The END-inference assignment of the timeout branch of `receive_loop`:
`total_expected = max_seq + 1; end_received = True`. -/
def infer_end (t : Transfer) : Transfer :=
  { t with total_expected := some (maxKey t.chunks + 1), end_received := true }

/-- The per-transfer timeout check of `receive_loop`: when no END was seen
and the global silence exceeds RECV_TIMEOUT, infer the total and run
`handle_transfer_complete`; otherwise do nothing (`none`). -/
def check_timeout (myAddr offsetFreq fileId : Nat) (t : Transfer)
    (time_since_last_data : Rat) : Option (Option Transfer × CompleteResult) :=
  if t.end_received = false ∧ time_since_last_data > RECV_TIMEOUT then
    some (handle_transfer_complete myAddr offsetFreq fileId (infer_end t))
  else none

end ImageReceiver

/-! ## Frame resynchronizer (the packet-framing loop inside
`ImageReceiver.receive_loop`) -/

/-- Python `buffer.find(bytes([SYNC_BYTE]), 1)`: the first index `≥ 1`
holding the sync marker, if any. -/
def findSync (buffer : List Nat) : Option Nat :=
  ((buffer.drop 1).findIdx? (fun b => b = SYNC_BYTE)).map (· + 1)

/-- What one iteration of the framing loop did to the buffer. -/
inductive StepResult where
  | emit (frame rest : List Nat)
  | drop (rest : List Nat)
  | stop (rest : List Nat)
deriving DecidableEq

/-- The expected-total-length rule of the framing loop: fixed sizes for
DATA/END/ACK, and `12 + num_missing * 2` for NACK with `num_missing` read
big-endian from offsets 10-11. -/
def expectedSize (pktType : Nat) (buffer : List Nat) : Nat :=
  if pktType = PKT_DATA then 1 + 6 + 1 + 2 + 2 + 1 + CHUNK_SIZE
  else if pktType = PKT_END then 1 + 6 + 1 + 2 + 2
  else if pktType = PKT_ACK then 1 + 6 + 1 + 2 + 2
  else 1 + 6 + 1 + 2 + 2 + (256 * buffer.getD 10 0 + buffer.getD 11 0) * 2

/-- The raw-noise heuristic of the dead `else` branch of the framing loop:
`len(buffer) > 50 and buffer.count(0x00) > len(buffer) // 4`. -/
def looksLikeRawNoise (buffer : List Nat) : Bool :=
  decide (buffer.length > 50) && decide (buffer.count 0 > buffer.length / 4)

/-- One iteration of the framing loop of `receive_loop`: check the sync
byte (resynchronize or stop when absent), validate the type byte, compute
the expected length, and emit one complete frame when available. -/
def resyncStep (buffer : List Nat) : StepResult :=
  if buffer.length < 12 then StepResult.stop buffer
  else if buffer.getD 0 0 ≠ SYNC_BYTE then
    match findSync buffer with
    | none => StepResult.stop (buffer.drop (buffer.length - 1))
    | some pos => StepResult.drop (buffer.drop pos)
  else
    let pktType := buffer.getD 7 0
    if pktType ≠ PKT_DATA ∧ pktType ≠ PKT_END ∧ pktType ≠ PKT_ACK ∧ pktType ≠ PKT_NACK then
      StepResult.drop (buffer.drop 1)
    else
      let expected := expectedSize pktType buffer
      if buffer.length < expected then StepResult.stop buffer
      else StepResult.emit (buffer.take expected) (buffer.drop expected)

/-- The framing loop, with explicit fuel; `resyncStep` strictly shrinks the
buffer on every continuing iteration, so fuel `buffer.length` is enough
(proved below). Returns the emitted frames in order and the final buffer. -/
def resyncCycleAux : Nat → List Nat → List (List Nat) × List Nat
  | 0, buffer => ([], buffer)
  | fuel + 1, buffer =>
    match resyncStep buffer with
    | StepResult.stop rest => ([], rest)
    | StepResult.drop rest => resyncCycleAux fuel rest
    | StepResult.emit f rest =>
      let r := resyncCycleAux fuel rest
      (f :: r.1, r.2)

/-- One full poll-cycle of the framing loop on the accumulated buffer. -/
def resyncCycle (buffer : List Nat) : List (List Nat) × List Nat :=
  resyncCycleAux buffer.length buffer

/-! ## Frame field extraction and dispatch (receive_loop, after a complete
packet has been sliced out) -/

def frameType (pkt : List Nat) : Nat := pkt.getD 7 0

def frameFileId (pkt : List Nat) : Nat := 256 * pkt.getD 8 0 + pkt.getD 9 0

def frameSeq (pkt : List Nat) : Nat := 256 * pkt.getD 10 0 + pkt.getD 11 0

def frameSenderAddr (pkt : List Nat) : Nat := 256 * pkt.getD 4 0 + pkt.getD 5 0

def frameChecksumByte (pkt : List Nat) : Nat := pkt.getD 12 0

def frameChunkData (pkt : List Nat) : List Nat := pkt.drop 13

/-- The seq field of a frame built by the sender, which has no sync byte:
its seq bytes sit one position earlier, at offsets 9-10. -/
def senderFrameSeq (pkt : List Nat) : Nat := 256 * pkt.getD 9 0 + pkt.getD 10 0

/-- The dispatch at the bottom of the framing loop: DATA frames go to
`process_data_packet`, END frames to `process_end_packet`, others only
update activity timestamps. -/
def dispatchFrame (myAddr offsetFreq : Nat) (transfers : TransferMap)
    (pkt : List Nat) (now : Rat) : TransferMap :=
  if frameType pkt = PKT_DATA then
    (ImageReceiver.process_data_packet transfers (frameSenderAddr pkt)
      (frameFileId pkt) (frameSeq pkt) (frameChecksumByte pkt)
      (frameChunkData pkt) now).1
  else if frameType pkt = PKT_END then
    (ImageReceiver.process_end_packet myAddr offsetFreq transfers
      (frameSenderAddr pkt) (frameFileId pkt) (frameSeq pkt) now).1
  else transfers

/-- Decoder for a list of big-endian 2-byte sequence numbers (the NACK
payload interpretation of the codec). -/
def decodeSeqList : List Nat → List Nat
  | a :: b :: rest => (256 * a + b) :: decodeSeqList rest
  | _ => []

/-! ## The 853-byte end-to-end scenario (claim C1): an 853-byte file, bulk
send with chunk 2 dropped, then the sender's END frame. -/

/-- A concrete 853-byte input file. -/
def image853 : List Nat := List.replicate 853 1

def scenarioFileId : Nat := 0x0123

def scenarioChunk (seq : Nat) : List Nat := ImageSender.chunkData image853 seq

/-- Delivery of the sender's DATA frame for chunk `seq` to the receiver's
handler (checksum byte as computed at split time by the sender). -/
def scenarioDeliver (st : TransferMap) (seq : Nat) : TransferMap :=
  (ImageReceiver.process_data_packet st 0 scenarioFileId seq
    (checksum (scenarioChunk seq)) (scenarioChunk seq) 0).1

/-- Receiver state after the first bulk pass with chunk 2 dropped. -/
def scenarioAfterBulk : TransferMap :=
  scenarioDeliver (scenarioDeliver (scenarioDeliver (scenarioDeliver [] 0) 1) 3) 4

/-- The seq_or_count value actually carried by the sender's END frame. -/
def scenarioEndValue : Nat :=
  senderFrameSeq (ImageSender.send_end_packet 0 18 0 scenarioFileId)

/-- Receiver reaction to the sender's END frame. -/
def scenarioEndResult : TransferMap × Option CompleteResult :=
  ImageReceiver.process_end_packet 0 18 scenarioAfterBulk 0 scenarioFileId
    scenarioEndValue 0

/-- The sequence numbers listed in the receiver's first NACK frame. -/
def scenarioFirstNackSeqs : List Nat :=
  match scenarioEndResult.2 with
  | some res =>
    match res.outcome with
    | Outcome.nackSent pkt => decodeSeqList (pkt.drop 12)
    | _ => []
  | none => []

/-- The chunk map the receiver holds after the bulk pass of the scenario. -/
def scenarioStoredChunks : List (Nat × List Nat) :=
  [(0, scenarioChunk 0), (1, scenarioChunk 1), (3, scenarioChunk 3), (4, scenarioChunk 4)]

/-- The transfer record the receiver holds after the bulk pass. -/
def scenarioTransfer : Transfer := ⟨0, scenarioStoredChunks, 0, none, false⟩

/-- A concrete full-size chunk used by witness instances. -/
def demoChunk : List Nat := List.replicate CHUNK_SIZE 1

/-- A concrete well-formed DATA frame (receiver wire layout) used by
witness instances. -/
def demoDataFrame : List Nat :=
  ImageReceiver.build_packet 0 18 0 PKT_DATA 0x0123 0 (checksum demoChunk :: demoChunk)

/-! ## Helper lemmas: association lists -/

theorem alookup_aupsert_self {α : Type} (l : List (Nat × α)) (k : Nat) (v : α) :
    alookup (aupsert l k v) k = some v := by
  induction l with
  | nil => simp [aupsert, alookup]
  | cons p rest ih =>
    obtain ⟨k', v'⟩ := p
    by_cases h : k' = k
    · simp [aupsert, h, alookup]
    · simp [aupsert, h, alookup, ih]

theorem alookup_aupsert_ne {α : Type} (l : List (Nat × α)) (k k' : Nat) (v : α)
    (h : k' ≠ k) : alookup (aupsert l k v) k' = alookup l k' := by
  have hkk : ¬k = k' := fun hh => h hh.symm
  induction l with
  | nil => simp [aupsert, alookup, hkk]
  | cons p rest ih =>
    obtain ⟨k0, v0⟩ := p
    by_cases hk : k0 = k
    · subst hk
      simp [aupsert, alookup, hkk]
    · simp [aupsert, hk, alookup, ih]

/-! ## Helper lemmas: checksum under a single-byte change -/

theorem sum_set_add (l : List Nat) (i b : Nat) (h : i < l.length) :
    (l.set i b).sum + l.getD i 0 = l.sum + b := by
  induction l generalizing i with
  | nil => simp at h
  | cons x xs ih =>
    cases i with
    | zero => simp [List.getD]; omega
    | succ n =>
      have h' : n < xs.length := by simpa using h
      have := ih n h'
      simp [List.getD] at this ⊢
      omega

theorem getD_mem (l : List Nat) (i : Nat) (h : i < l.length) : l.getD i 0 ∈ l := by
  rw [List.getD_eq_getElem?_getD, List.getElem?_eq_getElem h]
  exact List.getElem_mem h

theorem checksum_set_ne (l : List Nat) (i b : Nat) (hi : i < l.length)
    (hb : b ≠ l.getD i 0) (hb256 : b < 256) (hl : ∀ x ∈ l, x < 256) :
    checksum (l.set i b) ≠ checksum l := by
  intro hEq
  unfold checksum at hEq
  have hsum := sum_set_add l i b hi
  have hold : l.getD i 0 < 256 := hl _ (getD_mem l i hi)
  omega

/-! ## Helper lemmas: maximum of the chunk keys -/

theorem foldr_max_mem (l : List Nat) (h : l ≠ []) : l.foldr max 0 ∈ l := by
  induction l with
  | nil => exact absurd rfl h
  | cons x xs ih =>
    cases xs with
    | nil => simp
    | cons y ys =>
      rcases max_choice x ((y :: ys).foldr max 0) with h1 | h1
      · simp only [List.foldr, h1] at *
        exact List.mem_cons_self _ _
      · simp only [List.foldr] at h1 ⊢
        rw [h1]
        exact List.mem_cons_of_mem _ (ih (by simp))

theorem le_foldr_max (l : List Nat) (x : Nat) (h : x ∈ l) : x ≤ l.foldr max 0 := by
  induction l with
  | nil => simp at h
  | cons y ys ih =>
    rcases List.mem_cons.mp h with rfl | h'
    · exact le_max_left _ _
    · exact le_trans (ih h') (le_max_right _ _)

theorem maxKey_mem {α : Type} (l : List (Nat × α)) (h : l ≠ []) :
    maxKey l ∈ l.map Prod.fst := by
  apply foldr_max_mem
  simpa using h

theorem le_maxKey {α : Type} (l : List (Nat × α)) (k : Nat)
    (h : k ∈ l.map Prod.fst) : k ≤ maxKey l :=
  le_foldr_max _ _ h

/-! ## Helper lemmas: packet shapes -/

theorem receiver_packet_length (m o d t f s : Nat) (data : List Nat) :
    (ImageReceiver.build_packet m o d t f s data).length = 12 + data.length := by
  simp [ImageReceiver.build_packet]
  omega

theorem receiver_packet_drop12 (m o d t f s : Nat) (data : List Nat) :
    (ImageReceiver.build_packet m o d t f s data).drop 12 = data := rfl

theorem receiver_packet_getD10 (m o d t f s : Nat) (data : List Nat) :
    (ImageReceiver.build_packet m o d t f s data).getD 10 0 = s / 256 % 256 := rfl

theorem receiver_packet_getD11 (m o d t f s : Nat) (data : List Nat) :
    (ImageReceiver.build_packet m o d t f s data).getD 11 0 = s % 256 := rfl

theorem receiver_packet_getD7 (m o d t f s : Nat) (data : List Nat) :
    (ImageReceiver.build_packet m o d t f s data).getD 7 0 = t := rfl

theorem receiver_packet_getD0 (m o d t f s : Nat) (data : List Nat) :
    (ImageReceiver.build_packet m o d t f s data).getD 0 0 = SYNC_BYTE := rfl

theorem decodeSeqList_flatMap (l : List Nat) (h : ∀ x ∈ l, x < 65536) :
    decodeSeqList (l.flatMap u16be) = l := by
  induction l with
  | nil => rfl
  | cons x xs ih =>
    have hx : x < 65536 := h x (by simp)
    have hxs : ∀ y ∈ xs, y < 65536 := fun y hy => h y (by simp [hy])
    have hstep : (x :: xs).flatMap u16be
        = (x / 256 % 256) :: (x % 256) :: xs.flatMap u16be := by
      simp [List.flatMap_cons, u16be]
    rw [hstep, decodeSeqList, ih hxs]
    congr 1
    omega

/-! ## Helper lemmas: resynchronizer progress -/

theorem findSync_ge_one {buffer : List Nat} {pos : Nat}
    (h : findSync buffer = some pos) : 1 ≤ pos := by
  unfold findSync at h
  rw [Option.map_eq_some'] at h
  obtain ⟨k, _, hk⟩ := h
  omega

theorem expectedSize_ge (t : Nat) (b : List Nat) : 12 ≤ expectedSize t b := by
  unfold expectedSize CHUNK_SIZE
  split_ifs <;> omega

theorem resyncStep_cases (buffer : List Nat) :
    (∃ rest, resyncStep buffer = StepResult.stop rest ∧ rest.length ≤ buffer.length) ∨
    (∃ rest, resyncStep buffer = StepResult.drop rest ∧ rest.length < buffer.length) ∨
    (∃ f rest, resyncStep buffer = StepResult.emit f rest ∧
      rest.length < buffer.length) := by
  unfold resyncStep
  by_cases h1 : buffer.length < 12
  · left
    exact ⟨buffer, by rw [if_pos h1], le_refl _⟩
  · rw [if_neg h1]
    by_cases h2 : buffer.getD 0 0 ≠ SYNC_BYTE
    · rw [if_pos h2]
      cases hfs : findSync buffer with
      | none =>
        left
        refine ⟨_, rfl, ?_⟩
        simp
      | some pos =>
        right; left
        refine ⟨_, rfl, ?_⟩
        have hp := findSync_ge_one hfs
        simp only [List.length_drop]
        omega
    · rw [if_neg h2]
      by_cases h3 : buffer.getD 7 0 ≠ PKT_DATA ∧ buffer.getD 7 0 ≠ PKT_END ∧
          buffer.getD 7 0 ≠ PKT_ACK ∧ buffer.getD 7 0 ≠ PKT_NACK
      · right; left
        rw [if_pos h3]
        refine ⟨_, rfl, ?_⟩
        simp only [List.length_drop]
        omega
      · rw [if_neg h3]
        by_cases h4 : buffer.length < expectedSize (buffer.getD 7 0) buffer
        · left
          exact ⟨buffer, by rw [if_pos h4], le_refl _⟩
        · right; right
          rw [if_neg h4]
          refine ⟨_, _, rfl, ?_⟩
          have := expectedSize_ge (buffer.getD 7 0) buffer
          simp only [List.length_drop]
          omega

theorem resyncStep_stop_length {buffer rest : List Nat}
    (h : resyncStep buffer = StepResult.stop rest) : rest.length ≤ buffer.length := by
  rcases resyncStep_cases buffer with ⟨r, hr, hle⟩ | ⟨r, hr, _⟩ | ⟨f, r, hr, _⟩ <;>
    rw [h] at hr
  · injection hr with h'
    subst h'
    exact hle
  · cases hr
  · cases hr

theorem resyncStep_drop_length {buffer rest : List Nat}
    (h : resyncStep buffer = StepResult.drop rest) : rest.length < buffer.length := by
  rcases resyncStep_cases buffer with ⟨r, hr, _⟩ | ⟨r, hr, hlt⟩ | ⟨f, r, hr, _⟩ <;>
    rw [h] at hr
  · cases hr
  · injection hr with h'
    subst h'
    exact hlt
  · cases hr

theorem resyncStep_emit_length {buffer f rest : List Nat}
    (h : resyncStep buffer = StepResult.emit f rest) : rest.length < buffer.length := by
  rcases resyncStep_cases buffer with ⟨r, hr, _⟩ | ⟨r, hr, _⟩ | ⟨g, r, hr, hlt⟩ <;>
    rw [h] at hr
  · cases hr
  · cases hr
  · injection hr with h' h''
    subst h''
    exact hlt

/-! ## Helper lemmas: the framing cycle -/

theorem resyncStep_nil : resyncStep [] = StepResult.stop [] := rfl

theorem resyncCycleAux_rest_le (k : Nat) :
    ∀ buffer : List Nat, (resyncCycleAux k buffer).2.length ≤ buffer.length := by
  induction k with
  | zero => intro buffer; exact le_refl _
  | succ n ih =>
    intro buffer
    unfold resyncCycleAux
    cases hs : resyncStep buffer with
    | stop rest => simpa using resyncStep_stop_length hs
    | drop rest =>
      have h1 := ih rest
      have h2 := resyncStep_drop_length hs
      simpa using le_trans h1 (le_of_lt h2)
    | emit f rest =>
      have h1 := ih rest
      have h2 := resyncStep_emit_length hs
      simpa using le_trans h1 (le_of_lt h2)

theorem resyncCycleAux_fuel_eq :
    ∀ (k : Nat) (buffer : List Nat) (k' : Nat), buffer.length ≤ k →
      buffer.length ≤ k' → resyncCycleAux k buffer = resyncCycleAux k' buffer := by
  intro k
  induction k with
  | zero =>
    intro buffer k' hk _
    have hb : buffer = [] := List.length_eq_zero.mp (Nat.le_zero.mp hk)
    subst hb
    cases k' with
    | zero => rfl
    | succ m => simp [resyncCycleAux, resyncStep_nil]
  | succ n ih =>
    intro buffer k' hk hk'
    cases k' with
    | zero =>
      have hb : buffer = [] := List.length_eq_zero.mp (Nat.le_zero.mp hk')
      subst hb
      simp [resyncCycleAux, resyncStep_nil]
    | succ m =>
      show resyncCycleAux (n + 1) buffer = resyncCycleAux (m + 1) buffer
      unfold resyncCycleAux
      cases hs : resyncStep buffer with
      | stop rest => rfl
      | drop rest =>
        have hlt := resyncStep_drop_length hs
        exact ih rest m (by omega) (by omega)
      | emit f rest =>
        have hlt := resyncStep_emit_length hs
        dsimp only
        rw [ih rest m (by omega) (by omega)]

theorem resyncCycle_frames_spec :
    ∀ (k : Nat) (buffer f : List Nat), f ∈ (resyncCycleAux k buffer).1 →
      ∃ b rest, resyncStep b = StepResult.emit f rest := by
  intro k
  induction k with
  | zero => intro buffer f hf; simp [resyncCycleAux] at hf
  | succ n ih =>
    intro buffer f hf
    unfold resyncCycleAux at hf
    cases hs : resyncStep buffer with
    | stop rest => rw [hs] at hf; simp at hf
    | drop rest => rw [hs] at hf; exact ih rest f hf
    | emit g rest =>
      rw [hs] at hf
      simp only [List.mem_cons] at hf
      rcases hf with rfl | hf
      · exact ⟨buffer, rest, hs⟩
      · exact ih rest f hf

theorem getD_take {l : List Nat} {n i : Nat} (h : i < n) :
    (l.take n).getD i 0 = l.getD i 0 := by
  simp [List.getD_eq_getElem?_getD, List.getElem?_take, h]

theorem resyncStep_emit_inv {buffer f rest : List Nat}
    (h : resyncStep buffer = StepResult.emit f rest) :
    12 ≤ buffer.length ∧
      f = buffer.take (expectedSize (buffer.getD 7 0) buffer) ∧
      expectedSize (buffer.getD 7 0) buffer ≤ buffer.length := by
  unfold resyncStep at h
  by_cases h1 : buffer.length < 12
  · rw [if_pos h1] at h; cases h
  · rw [if_neg h1] at h
    by_cases h2 : buffer.getD 0 0 ≠ SYNC_BYTE
    · rw [if_pos h2] at h
      cases hfs : findSync buffer <;> rw [hfs] at h <;> cases h
    · rw [if_neg h2] at h
      by_cases h3 : buffer.getD 7 0 ≠ PKT_DATA ∧ buffer.getD 7 0 ≠ PKT_END ∧
          buffer.getD 7 0 ≠ PKT_ACK ∧ buffer.getD 7 0 ≠ PKT_NACK
      · rw [if_pos h3] at h; cases h
      · rw [if_neg h3] at h
        by_cases h4 : buffer.length < expectedSize (buffer.getD 7 0) buffer
        · rw [if_pos h4] at h; cases h
        · rw [if_neg h4] at h
          injection h with hf hr
          exact ⟨by omega, hf.symm, by omega⟩

theorem emitted_data_frame_shape {buffer f rest : List Nat}
    (h : resyncStep buffer = StepResult.emit f rest) (hty : f.getD 7 0 = PKT_DATA) :
    f.length = 13 + CHUNK_SIZE := by
  obtain ⟨h12, hf, hle⟩ := resyncStep_emit_inv h
  have hexp := expectedSize_ge (buffer.getD 7 0) buffer
  have h7 : f.getD 7 0 = buffer.getD 7 0 := by
    rw [hf]
    exact getD_take (by omega)
  rw [h7] at hty
  have hsz : expectedSize (buffer.getD 7 0) buffer = 13 + CHUNK_SIZE := by
    rw [hty]
    unfold expectedSize
    simp [PKT_DATA]
  rw [hf, List.length_take, hsz]
  rw [hsz] at hle
  omega

/-! ## Helper lemmas: the 853-byte scenario -/

set_option maxRecDepth 40000 in
theorem scenarioAfterBulk_eq :
    scenarioAfterBulk = [(scenarioFileId, scenarioTransfer)] := by decide

theorem scenario_lookup_ge5 (s : Nat) (hs : 5 ≤ s) :
    alookup scenarioStoredChunks s = none := by
  simp only [scenarioStoredChunks, alookup]
  split_ifs <;> first | rfl | omega

set_option maxRecDepth 40000 in
theorem scenarioMissing_low :
    (List.range' 0 5).filter
      (fun s => (alookup scenarioStoredChunks s).isNone) = [2] := by decide

theorem scenarioMissing_eq :
    ImageReceiver.missingSeqs 65535 scenarioStoredChunks = 2 :: List.range' 5 65530 := by
  unfold ImageReceiver.missingSeqs
  have hsplit : List.range 65535 = List.range' 0 5 ++ List.range' 5 65530 := by
    rw [List.range_eq_range']
    have h := List.range'_append_1 0 5 65530
    norm_num at h
    exact h.symm
  rw [hsplit, List.filter_append, scenarioMissing_low]
  have h2 : (List.range' 5 65530).filter
      (fun s => (alookup scenarioStoredChunks s).isNone) = List.range' 5 65530 := by
    apply List.filter_eq_self.mpr
    intro a ha
    have h5 : 5 ≤ a := (List.mem_range'_1.mp ha).1
    simp [scenario_lookup_ge5 a h5]
  rw [h2]
  rfl

theorem scenarioTake114 :
    (2 :: List.range' 5 65530).take 114 = 2 :: List.range' 5 113 := by
  have hsplit : List.range' 5 65530 = List.range' 5 113 ++ List.range' 118 65417 := by
    have h := List.range'_append_1 5 113 65417
    norm_num at h
    exact h.symm
  rw [hsplit]
  show (2 : Nat) :: (List.range' 5 113 ++ List.range' 118 65417).take 113 = _
  rw [List.take_append_of_le_length (by simp)]
  simp

theorem handle_nack_shape (m o fid sa : Nat) (ch : List (Nat × List Nat))
    (lt : Rat) (total : Nat) (er : Bool)
    (hm : (ImageReceiver.missingSeqs total ch).isEmpty = false) :
    ImageReceiver.handle_transfer_complete m o fid ⟨sa, ch, lt, some total, er⟩
      = (some ⟨sa, ch, lt, some total, er⟩,
         ⟨total, ImageReceiver.missingSeqs total ch,
          Outcome.nackSent (ImageReceiver.send_nack_list m o sa fid
            (ImageReceiver.missingSeqs total ch))⟩) := by
  unfold ImageReceiver.handle_transfer_complete
  dsimp only
  rw [if_neg (by simp [hm])]

theorem process_end_eq (m o sa fid total : Nat) (tr : TransferMap) (t : Transfer)
    (now : Rat) (hl : alookup tr fid = some t) :
    ImageReceiver.process_end_packet m o tr sa fid total now
      = (match ImageReceiver.handle_transfer_complete m o fid
            ⟨t.sender_addr, t.chunks, now, some total, true⟩ with
         | (none, res) => (aremove tr fid, some res)
         | (some t2, res) => (aupsert tr fid t2, some res)) := by
  unfold ImageReceiver.process_end_packet
  rw [hl]

theorem send_nack_list_long (m o sa fid : Nat) (missing : List Nat)
    (h : missing.length > ImageReceiver.max_seqs_per_packet) :
    ImageReceiver.send_nack_list m o sa fid missing
      = ImageReceiver.build_packet m o sa PKT_NACK fid
          (missing.take ImageReceiver.max_seqs_per_packet).length
          ((missing.take ImageReceiver.max_seqs_per_packet).flatMap u16be) := by
  unfold ImageReceiver.send_nack_list
  dsimp only
  rw [if_pos h]

theorem send_nack_list_short (m o sa fid : Nat) (missing : List Nat)
    (h : ¬missing.length > ImageReceiver.max_seqs_per_packet) :
    ImageReceiver.send_nack_list m o sa fid missing
      = ImageReceiver.build_packet m o sa PKT_NACK fid missing.length
          (missing.flatMap u16be) := by
  unfold ImageReceiver.send_nack_list
  dsimp only
  rw [if_neg h]

theorem scenarioNack_eq : scenarioFirstNackSeqs = 2 :: List.range' 5 113 := by
  have hev : scenarioEndValue = 65535 := by decide
  have hlook : alookup [(scenarioFileId, scenarioTransfer)] scenarioFileId
      = some scenarioTransfer := by simp [alookup]
  have hne : (ImageReceiver.missingSeqs 65535 scenarioStoredChunks).isEmpty = false := by
    rw [scenarioMissing_eq]
    rfl
  have hhandle := handle_nack_shape 0 18 scenarioFileId 0 scenarioStoredChunks 0 65535 true hne
  have hproc := process_end_eq 0 18 0 scenarioFileId 65535
    [(scenarioFileId, scenarioTransfer)] scenarioTransfer 0 hlook
  have hconv : (⟨scenarioTransfer.sender_addr, scenarioTransfer.chunks, (0 : Rat),
      some 65535, true⟩ : Transfer) = ⟨0, scenarioStoredChunks, 0, some 65535, true⟩ := rfl
  rw [hconv] at hproc
  rw [hhandle] at hproc
  have hlen : (2 :: List.range' 5 65530).length > ImageReceiver.max_seqs_per_packet := by
    rw [List.length_cons, List.length_range']
    norm_num [ImageReceiver.max_seqs_per_packet]
  have hnack := send_nack_list_long 0 18 0 scenarioFileId (2 :: List.range' 5 65530)
    hlen
  rw [show ImageReceiver.max_seqs_per_packet = 114 from rfl, scenarioTake114] at hnack
  unfold scenarioFirstNackSeqs scenarioEndResult
  rw [scenarioAfterBulk_eq, hev, hproc]
  dsimp only
  rw [scenarioMissing_eq, hnack, receiver_packet_drop12]
  apply decodeSeqList_flatMap
  intro x hx
  rcases List.mem_cons.mp hx with rfl | hx'
  · omega
  · have := List.mem_range'_1.mp hx'
    omega

/-! ## Helper lemmas: END processing and store-shape facts -/

theorem process_end_nack (m o sa fid total : Nat) (tr : TransferMap) (t : Transfer)
    (now : Rat) (hl : alookup tr fid = some t)
    (hm : (ImageReceiver.missingSeqs total t.chunks).isEmpty = false) :
    ImageReceiver.process_end_packet m o tr sa fid total now
      = (aupsert tr fid ⟨t.sender_addr, t.chunks, now, some total, true⟩,
         some ⟨total, ImageReceiver.missingSeqs total t.chunks,
           Outcome.nackSent (ImageReceiver.send_nack_list m o t.sender_addr fid
             (ImageReceiver.missingSeqs total t.chunks))⟩) := by
  rw [process_end_eq m o sa fid total tr t now hl]
  rw [handle_nack_shape m o fid t.sender_addr t.chunks now total true hm]

theorem missingSeqs_mem (total s : Nat) (ch : List (Nat × List Nat))
    (hs : s < total) (h : alookup ch s = none) :
    s ∈ ImageReceiver.missingSeqs total ch := by
  unfold ImageReceiver.missingSeqs
  apply List.mem_filter.mpr
  exact ⟨List.mem_range.mpr hs, by simp [h]⟩

theorem missingSeqs_not_empty (total s : Nat) (ch : List (Nat × List Nat))
    (hs : s < total) (h : alookup ch s = none) :
    (ImageReceiver.missingSeqs total ch).isEmpty = false :=
  List.isEmpty_eq_false.mpr (List.ne_nil_of_mem (missingSeqs_mem total s ch hs h))

theorem u16_field_roundtrip (n : Nat) (h : n < 65536) :
    256 * (n / 256 % 256) + n % 256 = n := by omega

theorem length_flatMap_u16be (l : List Nat) :
    (l.flatMap u16be).length = 2 * l.length := by
  induction l with
  | nil => rfl
  | cons x xs ih =>
    have hstep : (x :: xs).flatMap u16be
        = (x / 256 % 256) :: (x % 256) :: xs.flatMap u16be := by
      simp [List.flatMap_cons, u16be]
    rw [hstep]
    simp only [List.length_cons, ih]
    omega

theorem expectedSize_nack (b : List Nat) :
    expectedSize PKT_NACK b = 12 + (256 * b.getD 10 0 + b.getD 11 0) * 2 := by
  unfold expectedSize
  norm_num [PKT_NACK, PKT_DATA, PKT_END, PKT_ACK]

theorem drop_pred_eq_getLast :
    ∀ l : List Nat, l ≠ [] → ∃ b, l.getLast? = some b ∧ l.drop (l.length - 1) = [b]
  | [], h => absurd rfl h
  | [x], _ => ⟨x, rfl, rfl⟩
  | x :: y :: ys, _ => by
    obtain ⟨b, hb1, hb2⟩ := drop_pred_eq_getLast (y :: ys) (by simp)
    refine ⟨b, ?_, ?_⟩
    · rw [List.getLast?_cons_cons]
      exact hb1
    · have hlen : (x :: y :: ys).length - 1 = ((y :: ys).length - 1) + 1 := by
        simp
      rw [hlen, List.drop_succ_cons]
      exact hb2

theorem process_data_store_cases (transfers : TransferMap) (sa fid seq cb : Nat)
    (data : List Nat) (now : Rat) (fid0 : Nat) (t' : Transfer) (s : Nat) (c : List Nat)
    (ht : alookup (ImageReceiver.process_data_packet transfers sa fid seq cb data now).1
        fid0 = some t')
    (hc : alookup t'.chunks s = some c) :
    c = data ∨ ∃ t0, alookup transfers fid0 = some t0 ∧ alookup t0.chunks s = some c := by
  unfold ImageReceiver.process_data_packet at ht
  by_cases hcb : cb ≠ checksum data
  · rw [if_pos hcb] at ht
    exact Or.inr ⟨t', ht, hc⟩
  · rw [if_neg hcb] at ht
    by_cases hfid : fid0 = fid
    · subst hfid
      cases h2 : alookup transfers fid0 with
      | none =>
        rw [h2] at ht
        dsimp only at ht
        rw [alookup_aupsert_self] at ht
        injection ht with ht'
        subst ht'
        dsimp only at hc
        by_cases hs : s = seq
        · subst hs
          rw [alookup_aupsert_self] at hc
          injection hc with hc'
          exact Or.inl hc'.symm
        · rw [alookup_aupsert_ne _ _ _ _ hs] at hc
          simp [alookup] at hc
      | some t0 =>
        rw [h2] at ht
        dsimp only at ht
        rw [alookup_aupsert_self] at ht
        injection ht with ht'
        subst ht'
        dsimp only at hc
        by_cases hs : s = seq
        · subst hs
          rw [alookup_aupsert_self] at hc
          injection hc with hc'
          exact Or.inl hc'.symm
        · rw [alookup_aupsert_ne _ _ _ _ hs] at hc
          exact Or.inr ⟨t0, rfl, hc⟩
    · dsimp only at ht
      rw [alookup_aupsert_ne _ _ _ _ hfid] at ht
      exact Or.inr ⟨t', ht, hc⟩

/-! ## Claim theorems -/

set_option maxRecDepth 40000 in
/-- C1 (code bug): in the 853-byte / CHUNK_SIZE=200 scenario the split does
produce 5 chunks of sizes 200,200,200,200,53, but because
`send_end_packet` always puts the fixed placeholder 0xFFFF (65535) into
the END frame's seq_or_count field instead of the total chunk count, the
receiver sets `total_expected = 65535`, and with chunk 2 dropped its first
NACK lists the first 114 missing sequence numbers `2, 5, 6, ..., 117` —
not `[2]` as the claim (and the spec's intended protocol) requires; the
missing set can then never become empty. -/
theorem c1_end_to_end_scenario :
    (ImageSender.chunk_image image853).map List.length = [200, 200, 200, 200, 53] ∧
    scenarioEndValue = 65535 ∧
    scenarioFirstNackSeqs = 2 :: List.range' 5 113 ∧
    scenarioFirstNackSeqs ≠ [2] := by
  refine ⟨by decide, by decide, scenarioNack_eq, ?_⟩
  rw [scenarioNack_eq]
  simp

/-- C2 (code bug): `send_end_packet` transmits the END frame with the
fixed 0xFFFF placeholder in seq_or_count, not a total distinct from it
(for the 853-byte transfer the total is 5, and 0xFFFF ≠ 5); the
receiver-side half of the claim does hold: an explicit END frame for a
known file_id sets `end_received = true` and `total_expected` to the
carried value (here the bogus 65535). -/
theorem c2_end_frame_field :
    senderFrameSeq (ImageSender.send_end_packet 0 18 0 0x0123) = 0xFFFF ∧
    ImageSender.total_chunks_of 853 = 5 ∧ (0xFFFF : Nat) ≠ 5 ∧
    (∃ t' : Transfer,
      alookup (ImageReceiver.process_end_packet 0 18
          [(0x0123, ⟨7, [(0, [1])], 0, none, false⟩)] 0 0x0123 0xFFFF 0).1 0x0123
        = some t' ∧
      t'.end_received = true ∧ t'.total_expected = some 0xFFFF) := by
  refine ⟨by decide, by decide, by decide, ?_⟩
  have hm : (ImageReceiver.missingSeqs 65535
      ((⟨7, [(0, [1])], 0, none, false⟩ : Transfer).chunks)).isEmpty = false :=
    missingSeqs_not_empty 65535 1 _ (by norm_num) (by simp [alookup])
  have hp := process_end_nack 0 18 0 0x0123 65535
    [(0x0123, ⟨7, [(0, [1])], 0, none, false⟩)] ⟨7, [(0, [1])], 0, none, false⟩ 0
    (by simp [alookup]) hm
  refine ⟨⟨7, [(0, [1])], 0, some 65535, true⟩, ?_, rfl, rfl⟩
  have h1 : (ImageReceiver.process_end_packet 0 18
      [(0x0123, ⟨7, [(0, [1])], 0, none, false⟩)] 0 0x0123 0xFFFF 0).1
      = aupsert [(0x0123, ⟨7, [(0, [1])], 0, none, false⟩)] 0x0123
          ⟨7, [(0, [1])], 0, some 65535, true⟩ := by
    rw [show (0xFFFF : Nat) = 65535 from rfl, hp]
  rw [h1]
  exact alookup_aupsert_self _ _ _

set_option maxRecDepth 40000 in
/-- C3 (code bug): the receiver's build_packet follows the documented wire
layout — sync marker at offset 0, dest_addr at 1-2, dest freq offset at 3,
src_addr at 4-5, src freq offset at 6, type at 7, file_id at 8-9,
seq_or_count at 10-11, payload from 12, DATA length 13+CHUNK_SIZE — but
the sender's build_packet emits no sync byte at all: its first byte is the
high byte of dest_addr (0x00 here, not 0x7E), its type byte sits at offset
6, and its DATA frames are 12+CHUNK_SIZE = 212 bytes long. -/
theorem c3_frame_layout :
    (ImageReceiver.build_packet 5 18 3 PKT_DATA 0x1234 7
        (List.replicate (1 + CHUNK_SIZE) 9)).getD 0 0 = SYNC_BYTE ∧
    (ImageReceiver.build_packet 5 18 3 PKT_DATA 0x1234 7
        (List.replicate (1 + CHUNK_SIZE) 9)).getD 1 0 = 0 ∧
    (ImageReceiver.build_packet 5 18 3 PKT_DATA 0x1234 7
        (List.replicate (1 + CHUNK_SIZE) 9)).getD 2 0 = 3 ∧
    (ImageReceiver.build_packet 5 18 3 PKT_DATA 0x1234 7
        (List.replicate (1 + CHUNK_SIZE) 9)).getD 3 0 = 18 ∧
    frameSenderAddr (ImageReceiver.build_packet 5 18 3 PKT_DATA 0x1234 7
        (List.replicate (1 + CHUNK_SIZE) 9)) = 5 ∧
    (ImageReceiver.build_packet 5 18 3 PKT_DATA 0x1234 7
        (List.replicate (1 + CHUNK_SIZE) 9)).getD 6 0 = 18 ∧
    frameType (ImageReceiver.build_packet 5 18 3 PKT_DATA 0x1234 7
        (List.replicate (1 + CHUNK_SIZE) 9)) = PKT_DATA ∧
    frameFileId (ImageReceiver.build_packet 5 18 3 PKT_DATA 0x1234 7
        (List.replicate (1 + CHUNK_SIZE) 9)) = 0x1234 ∧
    frameSeq (ImageReceiver.build_packet 5 18 3 PKT_DATA 0x1234 7
        (List.replicate (1 + CHUNK_SIZE) 9)) = 7 ∧
    (ImageReceiver.build_packet 5 18 3 PKT_DATA 0x1234 7
        (List.replicate (1 + CHUNK_SIZE) 9)).drop 12 = List.replicate (1 + CHUNK_SIZE) 9 ∧
    (ImageReceiver.build_packet 5 18 3 PKT_DATA 0x1234 7
        (List.replicate (1 + CHUNK_SIZE) 9)).length = 13 + CHUNK_SIZE ∧
    (ImageSender.build_packet 5 18 3 PKT_DATA 0x1234 7
        (List.replicate (1 + CHUNK_SIZE) 9)).getD 0 0 = 0 ∧
    (0 : Nat) ≠ SYNC_BYTE ∧
    (ImageSender.build_packet 5 18 3 PKT_DATA 0x1234 7
        (List.replicate (1 + CHUNK_SIZE) 9)).getD 6 0 = PKT_DATA ∧
    (ImageSender.build_packet 5 18 3 PKT_DATA 0x1234 7
        (List.replicate (1 + CHUNK_SIZE) 9)).length = 12 + CHUNK_SIZE ∧
    12 + CHUNK_SIZE ≠ 13 + CHUNK_SIZE := by decide

/-- C4 counterexample: a 60-byte all-zero buffer starts with a non-sync
byte, contains no sync marker anywhere, and satisfies the code's own
raw-noise heuristic (length > 50 and more than a quarter zero bytes), yet
the framing loop keeps the last byte (`[0]`) instead of discarding the
entire buffer: the whole-buffer discard lives only in an unreachable
branch. -/
theorem c4_noise_discard_counterexample :
    12 ≤ (List.replicate 60 0 : List Nat).length ∧
    (List.replicate 60 0 : List Nat).getD 0 0 ≠ SYNC_BYTE ∧
    findSync (List.replicate 60 0) = none ∧
    looksLikeRawNoise (List.replicate 60 0) = true ∧
    resyncStep (List.replicate 60 0) = StepResult.stop [0] ∧
    ([0] : List Nat) ≠ [] := by decide

/-- C4 as amended: whenever the buffer (length ≥ 12) starts with a
non-sync byte and holds no sync marker after offset 0, the framing loop
always keeps exactly the last byte and stops the cycle — regardless of
whether the buffer looks like raw noise. -/
theorem c4_no_sync_keeps_last (buffer : List Nat) (h12 : 12 ≤ buffer.length)
    (h0 : buffer.getD 0 0 ≠ SYNC_BYTE) (hf : findSync buffer = none) :
    ∃ b, buffer.getLast? = some b ∧ resyncStep buffer = StepResult.stop [b] := by
  have hne : buffer ≠ [] := by
    intro h
    rw [h] at h12
    simp at h12
  obtain ⟨b, hb1, hb2⟩ := drop_pred_eq_getLast buffer hne
  refine ⟨b, hb1, ?_⟩
  unfold resyncStep
  rw [if_neg (by omega), if_pos h0, hf, hb2]

/-- Witness for the C4 theorem at a concrete buffer. -/
theorem c4_no_sync_keeps_last_witness :
    ∃ b, (List.replicate 13 5 : List Nat).getLast? = some b ∧
      resyncStep (List.replicate 13 5) = StepResult.stop [b] :=
  c4_no_sync_keeps_last (List.replicate 13 5) (by decide) (by decide) (by decide)

theorem expectedSize_data (b : List Nat) : expectedSize PKT_DATA b = 13 + CHUNK_SIZE := by
  norm_num [expectedSize, PKT_DATA, CHUNK_SIZE]

theorem expectedSize_end (b : List Nat) : expectedSize PKT_END b = 12 := by
  norm_num [expectedSize, PKT_DATA, PKT_END]

theorem expectedSize_ack (b : List Nat) : expectedSize PKT_ACK b = 12 := by
  norm_num [expectedSize, PKT_DATA, PKT_END, PKT_ACK]

theorem nack_packet_shape (m o sa fid : Nat) (missing : List Nat) :
    ImageReceiver.send_nack_list m o sa fid missing
      = ImageReceiver.build_packet m o sa PKT_NACK fid
          (min missing.length ImageReceiver.max_seqs_per_packet)
          ((missing.take (min missing.length ImageReceiver.max_seqs_per_packet)).flatMap
            u16be) := by
  by_cases h : missing.length > ImageReceiver.max_seqs_per_packet
  · rw [send_nack_list_long m o sa fid missing h]
    have h1 : min missing.length ImageReceiver.max_seqs_per_packet
        = ImageReceiver.max_seqs_per_packet := by omega
    have h2 : (missing.take ImageReceiver.max_seqs_per_packet).length
        = ImageReceiver.max_seqs_per_packet := by
      rw [List.length_take]
      omega
    rw [h1, h2]
  · rw [send_nack_list_short m o sa fid missing h]
    have h1 : min missing.length ImageReceiver.max_seqs_per_packet = missing.length := by
      omega
    rw [h1, List.take_length]

/-- C5: every iteration of the framing loop either emits a frame (strictly
shrinking the buffer), drops a strictly-shrinking amount of garbage, or
stops the cycle keeping at most the current buffer; consequently fuel
equal to the buffer length makes the cycle total (any larger fuel computes
the same result, so the loop cannot spin), and a full cycle never retains
more bytes than the backlog it was handed. -/
theorem c5_resync_progress (buffer : List Nat) :
    ((∃ f rest, resyncStep buffer = StepResult.emit f rest ∧
        rest.length < buffer.length) ∨
     (∃ rest, resyncStep buffer = StepResult.drop rest ∧
        rest.length < buffer.length) ∨
     (∃ rest, resyncStep buffer = StepResult.stop rest ∧
        rest.length ≤ buffer.length)) ∧
    (∀ fuel, buffer.length ≤ fuel → resyncCycleAux fuel buffer = resyncCycle buffer) ∧
    (resyncCycle buffer).2.length ≤ buffer.length := by
  refine ⟨?_, ?_, resyncCycleAux_rest_le _ _⟩
  · rcases resyncStep_cases buffer with h | h | h
    · exact Or.inr (Or.inr h)
    · exact Or.inr (Or.inl h)
    · exact Or.inl h
  · intro fuel hf
    exact resyncCycleAux_fuel_eq fuel buffer buffer.length hf (le_refl _)

/-- Witness for C5 at a concrete buffer. -/
theorem c5_resync_progress_witness :
    resyncCycleAux 20 (List.replicate 13 5) = resyncCycle (List.replicate 13 5) ∧
    (resyncCycle (List.replicate 13 5)).2.length ≤ (List.replicate 13 5 : List Nat).length :=
  ⟨(c5_resync_progress (List.replicate 13 5)).2.1 20 (by decide),
   (c5_resync_progress (List.replicate 13 5)).2.2⟩

/-- C6 counterexample: the NACK built for the missing list `[2]` is
14 bytes long; the bytes from offset 12 are `[0, 2]`, the encoding of
sequence number 2, not a second copy of the count (which would be
`[0, 1]`), and the total length is 12 + 2·count, not 14 + 2·count: the
count is carried once, in the seq_or_count field at offsets 10-11. -/
theorem c6_nack_payload_counterexample :
    (ImageReceiver.send_nack_list 0 18 0 0x0123 [2]).length = 14 ∧
    (ImageReceiver.send_nack_list 0 18 0 0x0123 [2]).getD 10 0 = 0 ∧
    (ImageReceiver.send_nack_list 0 18 0 0x0123 [2]).getD 11 0 = 1 ∧
    (ImageReceiver.send_nack_list 0 18 0 0x0123 [2]).drop 12 = [0, 2] ∧
    ((ImageReceiver.send_nack_list 0 18 0 0x0123 [2]).drop 12).take 2 ≠ u16be 1 ∧
    (ImageReceiver.send_nack_list 0 18 0 0x0123 [2]).length ≠ 14 + 2 * 1 := by decide

/-- C6 as amended: a NACK frame's expected total length is
12 + 2·count with the 2-byte count read big-endian from offsets 10-11
(the seq_or_count field — the only place the count occurs); the bytes from
offset 12 are exactly the 2-byte encodings of the (possibly truncated)
listed sequence numbers; and DATA, END, ACK frames have fixed expected
lengths independent of their contents. -/
theorem c6_nack_length_rule (m o sa fid : Nat) (missing : List Nat) (b : List Nat) :
    (ImageReceiver.send_nack_list m o sa fid missing).length
        = 12 + 2 * min missing.length ImageReceiver.max_seqs_per_packet ∧
    256 * (ImageReceiver.send_nack_list m o sa fid missing).getD 10 0 +
        (ImageReceiver.send_nack_list m o sa fid missing).getD 11 0
        = min missing.length ImageReceiver.max_seqs_per_packet ∧
    (ImageReceiver.send_nack_list m o sa fid missing).drop 12
        = (missing.take (min missing.length ImageReceiver.max_seqs_per_packet)).flatMap
            u16be ∧
    expectedSize PKT_NACK (ImageReceiver.send_nack_list m o sa fid missing)
        = (ImageReceiver.send_nack_list m o sa fid missing).length ∧
    expectedSize PKT_DATA b = 13 + CHUNK_SIZE ∧
    expectedSize PKT_END b = 12 ∧
    expectedSize PKT_ACK b = 12 := by
  have hn : min missing.length ImageReceiver.max_seqs_per_packet < 65536 := by
    have h114 : ImageReceiver.max_seqs_per_packet = 114 := rfl
    omega
  have hlen : (ImageReceiver.send_nack_list m o sa fid missing).length
      = 12 + 2 * min missing.length ImageReceiver.max_seqs_per_packet := by
    rw [nack_packet_shape, receiver_packet_length, length_flatMap_u16be, List.length_take]
    omega
  have hcount : 256 * (ImageReceiver.send_nack_list m o sa fid missing).getD 10 0 +
      (ImageReceiver.send_nack_list m o sa fid missing).getD 11 0
      = min missing.length ImageReceiver.max_seqs_per_packet := by
    rw [nack_packet_shape, receiver_packet_getD10, receiver_packet_getD11]
    exact u16_field_roundtrip _ hn
  refine ⟨hlen, hcount, ?_, ?_, expectedSize_data b, expectedSize_end b,
    expectedSize_ack b⟩
  · rw [nack_packet_shape, receiver_packet_drop12]
  · rw [expectedSize_nack, hcount, hlen]
    omega

/-- C7: when the missing set holds more than the 114 sequence numbers that
fit one NACK frame, the emitted NACK's count field equals 114 and the
listed sequence numbers are exactly the first 114 elements of the missing
set; the missing set itself is enumerated in strictly increasing order
over 0..total_expected-1, so the listed numbers are an ascending prefix
of it (truncated list ++ remainder = missing set). -/
theorem c7_nack_truncation (m o sa fid total : Nat) (chunks : List (Nat × List Nat))
    (htot : total ≤ 65536)
    (hlong : (ImageReceiver.missingSeqs total chunks).length
        > ImageReceiver.max_seqs_per_packet) :
    256 * (ImageReceiver.send_nack_list m o sa fid
          (ImageReceiver.missingSeqs total chunks)).getD 10 0 +
        (ImageReceiver.send_nack_list m o sa fid
          (ImageReceiver.missingSeqs total chunks)).getD 11 0
        = ImageReceiver.max_seqs_per_packet ∧
    decodeSeqList ((ImageReceiver.send_nack_list m o sa fid
          (ImageReceiver.missingSeqs total chunks)).drop 12)
        = (ImageReceiver.missingSeqs total chunks).take
            ImageReceiver.max_seqs_per_packet ∧
    (ImageReceiver.missingSeqs total chunks).take ImageReceiver.max_seqs_per_packet ++
        (ImageReceiver.missingSeqs total chunks).drop ImageReceiver.max_seqs_per_packet
        = ImageReceiver.missingSeqs total chunks ∧
    List.Pairwise (· < ·) (ImageReceiver.missingSeqs total chunks) ∧
    (∀ s ∈ ImageReceiver.missingSeqs total chunks, s < total) := by
  have hmin : min (ImageReceiver.missingSeqs total chunks).length
      ImageReceiver.max_seqs_per_packet = ImageReceiver.max_seqs_per_packet := by
    omega
  have hmem : ∀ s ∈ ImageReceiver.missingSeqs total chunks, s < total := by
    intro s hs
    unfold ImageReceiver.missingSeqs at hs
    exact List.mem_range.mp (List.mem_filter.mp hs).1
  refine ⟨?_, ?_, List.take_append_drop _ _, ?_, hmem⟩
  · rw [nack_packet_shape, receiver_packet_getD10, receiver_packet_getD11, hmin]
    exact u16_field_roundtrip _ (by norm_num [ImageReceiver.max_seqs_per_packet])
  · rw [nack_packet_shape, receiver_packet_drop12, hmin]
    apply decodeSeqList_flatMap
    intro x hx
    have := hmem x (List.mem_of_mem_take hx)
    omega
  · exact List.Pairwise.sublist (List.filter_sublist _) (List.pairwise_lt_range total)

/-- Witness for C7 at a concrete over-full missing set (120 missing of an
empty chunk map). -/
theorem c7_nack_truncation_witness :
    256 * (ImageReceiver.send_nack_list 0 18 0 7
          (ImageReceiver.missingSeqs 120 [])).getD 10 0 +
        (ImageReceiver.send_nack_list 0 18 0 7
          (ImageReceiver.missingSeqs 120 [])).getD 11 0
        = ImageReceiver.max_seqs_per_packet :=
  (c7_nack_truncation 0 18 0 7 120 [] (by decide) (by decide)).1

/-- C8: a delivered DATA chunk is stored in the transfer's chunk map iff
its checksum byte equals the sum of its data bytes mod 256; on a mismatch
`process_data_packet` returns the transfer map unchanged (and False), so
in particular replacing any single byte of a chunk by a different byte
value while keeping the original checksum makes the receiver drop the
frame without storing anything and without modifying any transfer state. -/
theorem c8_checksum_gate (transfers : TransferMap) (sa fid seq cb : Nat)
    (data : List Nat) (now : Rat) :
    (cb = checksum data →
        (ImageReceiver.process_data_packet transfers sa fid seq cb data now).2 = true ∧
        ∃ t', alookup (ImageReceiver.process_data_packet transfers sa fid seq cb
              data now).1 fid = some t' ∧
          alookup t'.chunks seq = some data) ∧
    (cb ≠ checksum data →
        ImageReceiver.process_data_packet transfers sa fid seq cb data now
          = (transfers, false)) ∧
    (∀ i b, i < data.length → b ≠ data.getD i 0 → b < 256 → (∀ x ∈ data, x < 256) →
        ImageReceiver.process_data_packet transfers sa fid seq (checksum data)
            (data.set i b) now
          = (transfers, false)) := by
  refine ⟨?_, ?_, ?_⟩
  · intro hcb
    unfold ImageReceiver.process_data_packet
    rw [if_neg (by simp [hcb])]
    exact ⟨rfl, _, alookup_aupsert_self _ _ _, alookup_aupsert_self _ _ _⟩
  · intro hcb
    unfold ImageReceiver.process_data_packet
    rw [if_pos hcb]
  · intro i b hi hb hb256 hl
    unfold ImageReceiver.process_data_packet
    rw [if_pos (Ne.symm (checksum_set_ne data i b hi hb hb256 hl))]

/-- Witness for C8: with chunk [1,2,3] (checksum 6), flipping byte 1 to 9
drops the frame and leaves an empty transfer map unchanged, while the
intact chunk is stored. -/
theorem c8_checksum_gate_witness :
    ImageReceiver.process_data_packet [] 0 10 0 6 ([1, 2, 3].set 1 9) 0
        = ([], false) ∧
    (ImageReceiver.process_data_packet [] 0 10 0 6 [1, 2, 3] 0).2 = true :=
  ⟨(c8_checksum_gate [] 0 10 0 6 [1, 2, 3] 0).2.2 1 9 (by decide) (by decide)
      (by decide) (by decide),
   ((c8_checksum_gate [] 0 10 0 6 [1, 2, 3] 0).1 (by decide)).1⟩

/-- C9: for a transfer with no END received and a non-empty chunk map,
silence longer than RECV_TIMEOUT makes the timeout branch fire: the
transfer gets total_expected = (maximum received sequence number) + 1 and
end_received = true, and handle_transfer_complete then runs on it, whose
missing set is computed for that inferred total (maxKey really is the
maximum of the stored sequence numbers). -/
theorem c9_timeout_inference (m o fid : Nat) (t : Transfer) (elapsed : Rat)
    (her : t.end_received = false) (helapsed : elapsed > RECV_TIMEOUT)
    (hne : t.chunks ≠ []) :
    ImageReceiver.check_timeout m o fid t elapsed
        = some (ImageReceiver.handle_transfer_complete m o fid
            (ImageReceiver.infer_end t)) ∧
    (ImageReceiver.infer_end t).total_expected = some (maxKey t.chunks + 1) ∧
    (ImageReceiver.infer_end t).end_received = true ∧
    (ImageReceiver.handle_transfer_complete m o fid
        (ImageReceiver.infer_end t)).2.missing
      = ImageReceiver.missingSeqs (maxKey t.chunks + 1) t.chunks ∧
    maxKey t.chunks ∈ t.chunks.map Prod.fst ∧
    (∀ k ∈ t.chunks.map Prod.fst, k ≤ maxKey t.chunks) := by
  refine ⟨?_, rfl, rfl, ?_, maxKey_mem t.chunks hne, fun k hk => le_maxKey t.chunks k hk⟩
  · unfold ImageReceiver.check_timeout
    rw [if_pos ⟨her, helapsed⟩]
  · unfold ImageReceiver.handle_transfer_complete ImageReceiver.infer_end
    dsimp only
    by_cases h : (ImageReceiver.missingSeqs (maxKey t.chunks + 1) t.chunks).isEmpty
    · rw [if_pos h]
    · rw [if_neg h]

/-- Witness for C9: chunks 0..4 received, no END, 16 seconds of silence:
the inferred total is maxKey + 1 = 5. -/
theorem c9_timeout_inference_witness :
    (ImageReceiver.infer_end
        ⟨0, [(0, [1]), (1, [1]), (2, [1]), (3, [1]), (4, [1])], 0, none, false⟩).total_expected
      = some (maxKey ([(0, [1]), (1, [1]), (2, [1]), (3, [1]), (4, [1])] :
          List (Nat × List Nat)) + 1) ∧
    maxKey ([(0, [1]), (1, [1]), (2, [1]), (3, [1]), (4, [1])] :
        List (Nat × List Nat)) + 1 = 5 :=
  ⟨(c9_timeout_inference 0 18 7
      ⟨0, [(0, [1]), (1, [1]), (2, [1]), (3, [1]), (4, [1])], 0, none, false⟩ 16
      rfl (by decide) (by decide)).2.1,
   by decide⟩

set_option maxRecDepth 40000 in
/-- C10: every DATA frame the framing loop emits is exactly 13+CHUNK_SIZE
bytes, so the chunk field it stores always has length CHUNK_SIZE; storing
such frames preserves the every-stored-chunk-has-length-CHUNK_SIZE
invariant of the transfer map; and the sender's split of the 853-byte file
produces a final chunk of length 53 ≠ CHUNK_SIZE, which therefore can
never be stored at its true shorter length. -/
theorem c10_fixed_chunk_length :
    (∀ buffer f, f ∈ (resyncCycle buffer).1 → f.getD 7 0 = PKT_DATA →
        f.length = 13 + CHUNK_SIZE ∧ (frameChunkData f).length = CHUNK_SIZE) ∧
    (∀ (transfers : TransferMap) (sa fid seq cb : Nat) (data : List Nat) (now : Rat),
        data.length = CHUNK_SIZE →
        (∀ fid0 t, alookup transfers fid0 = some t →
          ∀ s c, alookup t.chunks s = some c → c.length = CHUNK_SIZE) →
        (∀ fid0 t, alookup (ImageReceiver.process_data_packet transfers sa fid seq cb
              data now).1 fid0 = some t →
          ∀ s c, alookup t.chunks s = some c → c.length = CHUNK_SIZE)) ∧
    (ImageSender.chunkData image853 4).length = 53 ∧ (53 : Nat) ≠ CHUNK_SIZE := by
  refine ⟨?_, ?_, by decide, by decide⟩
  · intro buffer f hf hty
    obtain ⟨b, rest, hemit⟩ := resyncCycle_frames_spec buffer.length buffer f hf
    have hlen := emitted_data_frame_shape hemit hty
    refine ⟨hlen, ?_⟩
    unfold frameChunkData
    rw [List.length_drop, hlen]
    omega
  · intro transfers sa fid seq cb data now hdata hinv fid0 t ht s c hc
    rcases process_data_store_cases transfers sa fid seq cb data now fid0 t s c ht hc with
      rfl | ⟨t0, h1, h2⟩
    · exact hdata
    · exact hinv fid0 t0 h1 s c h2

set_option maxRecDepth 40000 in
/-- Witness for C10: the concrete 213-byte DATA frame is emitted whole by
the framing loop and its chunk field has length CHUNK_SIZE. -/
theorem c10_fixed_chunk_length_witness :
    demoDataFrame.length = 13 + CHUNK_SIZE ∧
    (frameChunkData demoDataFrame).length = CHUNK_SIZE :=
  ⟨(c10_fixed_chunk_length.1 demoDataFrame demoDataFrame (by decide) (by decide)).1,
   (c10_fixed_chunk_length.1 demoDataFrame demoDataFrame (by decide) (by decide)).2⟩
